import Mathlib

/-!
Shallow embedding of the gowfs WebHDFS client core (configuration.go and
fs.go). The repository ships two variants of each file concatenated: the
first (called V1 here) checks the HTTP status in `requestHdfsData` and has
configuration fields `UseHTTPS`/`UseBaseAuth`; the second (V2) performs no
status check, names the flag `EnableHTTPS`, and adds a Knox cookie
authentication handshake (`auth`) driven by `EnableKnoxAuth`.

Go strings are modelled as lists of characters (`Str`), response bodies as
lists of bytes (`Bytes`). `json.Unmarshal` and the outcomes of network and
file reads are parameters of the embedded functions, so every function here
is a pure, executable translation of the corresponding Go source.
-/

namespace gowfs

/-- Go string values (Addr, BasePath, path names, URL paths) as character
lists, so that indexing and concatenation can be reasoned about directly. -/
abbrev Str := List Char

/-- Go byte slices (response bodies). -/
abbrev Bytes := List UInt8

/-- Side effects an embedded function can perform, recorded as a trace.
`netCall` marks an HTTP round trip; `osUserLookup` marks the
`user.Current()` operating-system lookup in `GetNameNodeUrl`. -/
inductive Effect where
  | netCall
  | osUserLookup
deriving DecidableEq, Repr

/-- Outcome of running a Go function: either it returns a value or it
panics (for the modelled code, only the out-of-range string index
`p.Name[0]` in `buildRequestUrl` can panic). -/
inductive GoResult (α : Type) where
  | panics (msg : String)
  | returns (v : α)
deriving DecidableEq, Repr

/-- The RemoteException part of the WebHDFS JSON envelope:
`{"RemoteException":{"exception":...,"message":...,"javaClassName":...}}`.
Modelled from the spec: the `HdfsJsonData` struct literal is declared in a
repository file outside src/, and the spec gives this envelope shape. -/
structure RemoteException where
  exception : Str
  message : Str
  javaClassName : Str
deriving DecidableEq, Repr

/-- The decoded WebHDFS envelope. Modelled from the spec: the success
payload's operation-specific JSON fields are abstracted as a list of
key/value pairs; `makeHdfsData` in src/fs.go only ever inspects
`RemoteException.Exception`, so the claims do not depend on the payload's
exact field list. -/
structure HdfsJsonData where
  payload : List (Str × Str)
  remoteException : RemoteException
deriving DecidableEq, Repr

/-- The Go zero value `HdfsJsonData{}`. -/
def HdfsJsonData.empty : HdfsJsonData :=
  { payload := [], remoteException := { exception := [], message := [], javaClassName := [] } }

/-- Go `error` values produced by the embedded functions, one constructor
per distinct error source in src/, so that error kinds stay distinguishable
in theorems. `goMsg` stands for `errors.New`/`fmt.Errorf` generic errors,
`urlParse` for the error `url.Parse` returned (passed through as-is by
`GetNameNodeUrl`), `badStatus` for the V1 `errBadStatusCode` wrap carrying
the status code and status text, `remote` for a decoded RemoteException
returned as the error, `wrap` for `fmt.Errorf` context wrapping of an
inner error. -/
inductive GoErr where
  | goMsg (msg : String)
  | urlParse (msg : String)
  | transport (msg : String)
  | bodyRead (msg : String)
  | jsonDecode (msg : String)
  | badStatus (code : Nat) (text : String)
  | remote (re : RemoteException)
  | authBadStatus (code : Nat) (dump : String)
  | authNoSessionCookie
  | wrap (ctx : String) (e : GoErr)
deriving DecidableEq, Repr

/-- Configuration (src/configuration.go). Both variants share Addr,
BasePath, User and Password; the HTTPS toggle is `UseHTTPS` in V1 and
`EnableHTTPS` in V2 (one field here); `EnableKnoxAuth` exists in V2 only.
The timeout, keep-alive, compression, idle-connection, TLS-skip and retry
fields configure the HTTP transport and never influence the functions
modelled here, so they are omitted. -/
structure Configuration where
  Addr : Str
  BasePath : Str
  User : Str
  Password : Str
  UseHTTPS : Bool
  EnableKnoxAuth : Bool
deriving DecidableEq, Repr

/-- A parsed URL as produced by `url.Parse` on the strings the code
builds: scheme, host, path, and the query as key/value pairs.
`url.Values.Encode` re-serialises the query sorted by key; no claim
depends on the serialised order, so the query stays a pair list. -/
structure URL where
  scheme : Str
  host : Str
  path : Str
  query : List (Str × Str)
deriving DecidableEq, Repr

/-- In Go, the address of a struct field reached through a valid receiver
is never nil, so the guards `&conf.Addr == nil` and `&conf.User == nil`
in `GetNameNodeUrl` (both variants) always evaluate to false. -/
def fieldAddrIsNil : Bool := false

/-- The `WebHdfsVer` constant, `"/webhdfs/v1"` in both variants. -/
def WebHdfsVer : Str := "/webhdfs/v1".data

/-- The common `u, err := url.Parse(urlStr); if err != nil { return nil,
err }; return u, nil` tail of `GetNameNodeUrl` (both variants): a parse
failure is returned as the error, as-is; otherwise the parsed URL with a
nil error. `step` carries the receiver's state and the effect trace
accumulated before the parse. -/
def parseOutcome (step : Configuration × List Effect) (r : Except String URL) :
    Configuration × List Effect × Except GoErr URL :=
  match r with
  | Except.error e => (step.1, step.2, Except.error (GoErr.urlParse e))
  | Except.ok u => (step.1, step.2, Except.ok u)

/-- The V1 `GetNameNodeUrl` (src/configuration.go lines 39-64): guard on
`&conf.Addr == nil`, pick the scheme from `UseHTTPS`, build
`scheme://Addr/webhdfs/v1BasePath`, default an empty `User` from
`user.Current()` (the `osUser` parameter, recorded as an `osUserLookup`
effect), append `?user.name=User` unconditionally, and hand the string to
`url.Parse`. `url.Parse` belongs to Go's standard library and is the
`parse` parameter here: it can fail on constructible inputs (a
non-numeric port in Addr, invalid percent escapes in BasePath), and the
source returns its error as-is (`urlParse`). The pointer receiver can
mutate `conf.User`; the returned Configuration is the receiver's final
state. -/
def GetNameNodeUrl_v1 (parse : Str → Except String URL) (conf : Configuration)
    (osUser : Str) : Configuration × List Effect × Except GoErr URL :=
  if fieldAddrIsNil then
    (conf, [], Except.error (GoErr.goMsg ("Configuration namenode address not set.")))
  else
    let protocol : Str := if conf.UseHTTPS then "https".data else "http".data
    let urlStr0 : Str := protocol ++ "://".data ++ conf.Addr ++ WebHdfsVer ++ conf.BasePath
    let step : Configuration × List Effect :=
      if fieldAddrIsNil || conf.User.length == 0 then
        ({ conf with User := osUser }, [Effect.osUserLookup])
      else (conf, [])
    let urlStr : Str := urlStr0 ++ "?user.name=".data ++ step.1.User
    parseOutcome step (parse urlStr)

/-- The V2 `GetNameNodeUrl` (src/configuration.go lines 99-126): same as
V1 except the scheme flag is named `EnableHTTPS` (the `UseHTTPS` field
here) and `?user.name=User` is appended only when `User` is non-empty
after the defaulting step. -/
def GetNameNodeUrl_v2 (parse : Str → Except String URL) (conf : Configuration)
    (osUser : Str) : Configuration × List Effect × Except GoErr URL :=
  if fieldAddrIsNil then
    (conf, [], Except.error (GoErr.goMsg ("Configuration namenode address not set.")))
  else
    let scheme : Str := if conf.UseHTTPS then "https".data else "http".data
    let urlStr0 : Str := scheme ++ "://".data ++ conf.Addr ++ WebHdfsVer ++ conf.BasePath
    let step : Configuration × List Effect :=
      if fieldAddrIsNil || conf.User.length == 0 then
        ({ conf with User := osUser }, [Effect.osUserLookup])
      else (conf, [])
    let urlStr : Str :=
      if step.1.User ≠ [] then urlStr0 ++ "?user.name=".data ++ step.1.User else urlStr0
    parseOutcome step (parse urlStr)

/-- The `Path` argument of `buildRequestUrl`. Modelled from the spec: the
struct is declared in a repository file outside src/; the core reads only
its `Name` field (the logical remote path). -/
structure Path where
  Name : Str
deriving DecidableEq, Repr

/-- The `q := u.Query(); for key, val := range *params { q.Add(key, val) };
u.RawQuery = q.Encode()` tail of `buildRequestUrl`: merge the extra
parameters into the base URL's query. Go map iteration order is
unspecified and `Encode` sorts keys; the claims do not depend on order, so
the parameters arrive as a list and `Add` appends. -/
def attachParams (u : URL) (params : Option (List (Str × Str))) : URL :=
  match params with
  | none => u
  | some ps => { u with query := u.query ++ ps }

/-- The `buildRequestUrl` body (identical in fs.go lines 88-114 and
293-319), generic in which variant's `GetNameNodeUrl` it calls. `conf` is
passed by value, so the receiver state `GetNameNodeUrl` returns belongs to
the local copy and is dropped. When `p` is non-nil the code indexes
`p.Name[0]` without a length guard: on an empty name that is a Go runtime
panic (index out of range). -/
def buildRequestUrlWith
    (getNameNodeUrl : Configuration → Str → Configuration × List Effect × Except GoErr URL)
    (conf : Configuration) (p : Option Path) (params : Option (List (Str × Str)))
    (osUser : Str) : List Effect × GoResult (Except GoErr URL) :=
  match getNameNodeUrl conf osUser with
  | (_conf2, effs, Except.error e) => (effs, GoResult.returns (Except.error e))
  | (_conf2, effs, Except.ok u) =>
    match p with
    | none => (effs, GoResult.returns (Except.ok (attachParams u params)))
    | some pa =>
      match pa.Name with
      | [] => (effs, GoResult.panics ("runtime error: index out of range"))
      | c :: _rest =>
        let u2 := if c = '/' then { u with path := u.path ++ pa.Name }
                  else { u with path := u.path ++ '/' :: pa.Name }
        (effs, GoResult.returns (Except.ok (attachParams u2 params)))

/-- The V1 `buildRequestUrl` (fs.go lines 88-114). -/
def buildRequestUrl_v1 (parse : Str → Except String URL) (conf : Configuration)
    (p : Option Path) (params : Option (List (Str × Str))) (osUser : Str) :
    List Effect × GoResult (Except GoErr URL) :=
  buildRequestUrlWith (GetNameNodeUrl_v1 parse) conf p params osUser

/-- The V2 `buildRequestUrl` (fs.go lines 293-319). -/
def buildRequestUrl_v2 (parse : Str → Except String URL) (conf : Configuration)
    (p : Option Path) (params : Option (List (Str × Str))) (osUser : Str) :
    List Effect × GoResult (Except GoErr URL) :=
  buildRequestUrlWith (GetNameNodeUrl_v2 parse) conf p params osUser

/-- Call-site semantics of `buildRequestUrl(conf, p, params)` for the V1
variant: Go passes `conf Configuration` by value, so the first component
is the configuration variable the caller observes after the call. -/
def buildRequestUrlCall_v1 (parse : Str → Except String URL) (conf : Configuration)
    (p : Option Path) (params : Option (List (Str × Str))) (osUser : Str) :
    Configuration × List Effect × GoResult (Except GoErr URL) :=
  (conf, buildRequestUrl_v1 parse conf p params osUser)

/-- Call-site semantics of the V2 `buildRequestUrl`, as for V1. -/
def buildRequestUrlCall_v2 (parse : Str → Except String URL) (conf : Configuration)
    (p : Option Path) (params : Option (List (Str × Str))) (osUser : Str) :
    Configuration × List Effect × GoResult (Except GoErr URL) :=
  (conf, buildRequestUrl_v2 parse conf p params osUser)

/-- The `makeHdfsData` decoder (identical in fs.go lines 116-134 and
321-339). `unmarshal` stands for `json.Unmarshal` into `HdfsJsonData`,
returning either the filled struct or a parse error string. A nil Go byte
slice has length 0, so `len(data) == 0 || data == nil` is modelled by the
empty list. The Go function returns the pair (value, error); here the
error position is an `Option GoErr`. It contains no partial operation, so
the embedding is total: no panic outcome exists for it. -/
def makeHdfsData (unmarshal : Bytes → Except String HdfsJsonData) (data : Bytes) :
    HdfsJsonData × Option GoErr :=
  if data.length = 0 then (HdfsJsonData.empty, none)
  else
    match unmarshal data with
    | Except.error e => (HdfsJsonData.empty, some (GoErr.jsonDecode e))
    | Except.ok jsonData =>
      if jsonData.remoteException.exception ≠ [] then
        (HdfsJsonData.empty, some (GoErr.remote jsonData.remoteException))
      else (jsonData, none)

/-- Decidable equality for `Except`, needed to evaluate concrete response
outcomes in witnesses. -/
instance exceptDecEq {α β : Type} [DecidableEq α] [DecidableEq β] :
    DecidableEq (Except α β) := fun x y =>
  match x, y with
  | Except.error a, Except.error b =>
    if h : a = b then isTrue (by rw [h]) else isFalse (by intro hc; cases hc; exact h rfl)
  | Except.error _, Except.ok _ => isFalse (by intro hc; cases hc)
  | Except.ok _, Except.error _ => isFalse (by intro hc; cases hc)
  | Except.ok a, Except.ok b =>
    if h : a = b then isTrue (by rw [h]) else isFalse (by intro hc; cases hc; exact h rfl)

/-- An HTTP response as `requestHdfsData` observes it: the status code,
the status text (`rsp.Status`, e.g. "204 No Content"), and the outcome of
`ioutil.ReadAll(rsp.Body)` (a read error or the body bytes). -/
structure HttpResponse where
  statusCode : Nat
  status : String
  bodyRead : Except String Bytes
deriving DecidableEq, Repr

/-- The `responseToHdfsData` helper (identical in fs.go lines 136-142 and
341-347): read the whole body, then decode it. -/
def responseToHdfsData (unmarshal : Bytes → Except String HdfsJsonData)
    (rsp : HttpResponse) : HdfsJsonData × Option GoErr :=
  match rsp.bodyRead with
  | Except.error e => (HdfsJsonData.empty, some (GoErr.bodyRead e))
  | Except.ok body => makeHdfsData unmarshal body

/-- The V1 `requestHdfsData` (fs.go lines 144-155): `doResult` is the
outcome of `client.Do(&req)` (a transport-level failure or a response).
On a status code other than 200 (`http.StatusOK`) it returns the zero
value and `fmt.Errorf("%w : (%d) %s", errBadStatusCode, rsp.StatusCode,
rsp.Status)`; otherwise it reads and decodes the body. -/
def requestHdfsData_v1 (unmarshal : Bytes → Except String HdfsJsonData)
    (doResult : Except String HttpResponse) : HdfsJsonData × Option GoErr :=
  match doResult with
  | Except.error e => (HdfsJsonData.empty, some (GoErr.transport e))
  | Except.ok rsp =>
    if rsp.statusCode ≠ 200 then
      (HdfsJsonData.empty, some (GoErr.badStatus rsp.statusCode rsp.status))
    else responseToHdfsData unmarshal rsp

/-- The V2 `requestHdfsData` (fs.go lines 349-357): as V1 but with no
status-code check - the body is read and decoded whatever the status. -/
def requestHdfsData_v2 (unmarshal : Bytes → Except String HdfsJsonData)
    (doResult : Except String HttpResponse) : HdfsJsonData × Option GoErr :=
  match doResult with
  | Except.error e => (HdfsJsonData.empty, some (GoErr.transport e))
  | Except.ok rsp => responseToHdfsData unmarshal rsp

/-- The operation code the auth handshake uses. -/
def OP_LISTSTATUS : Str := "LISTSTATUS".data

/-- What the network returns during the V2 `auth` round trip:
`doResult` is the outcome of `fs.client.Do(req)` (transport failure or
the final HTTP status code), `dump` is what `httputil.DumpResponse` would
yield on the failure path, and `jarCookieNames` lists the names of the
cookies `fs.client.Jar.Cookies(baseURL)` holds for the base URL's host
after the exchange. -/
structure AuthExchange where
  doResult : Except String Nat
  dump : String
  jarCookieNames : List Str
deriving DecidableEq, Repr

/-- The V2 `auth` handshake (fs.go lines 255-290): build the request URL
for path "/" with `op=LISTSTATUS`, issue a GET with Basic credentials
(`http.NewRequest` cannot fail on the well-formed URL the builder
returns), then: a transport failure is an error; a status above 299 is an
error carrying the dumped response; otherwise the jar must now hold a
JSESSIONID cookie for the base URL, and its absence is the error
"session cookie not found in jar". Returns nil on success. -/
def auth (parse : Str → Except String URL) (conf : Configuration) (osUser : Str)
    (ex : AuthExchange) : GoResult (Option GoErr) :=
  match (buildRequestUrl_v2 parse conf (some { Name := "/".data })
      (some [("op".data, OP_LISTSTATUS)]) osUser).2 with
  | GoResult.panics m => GoResult.panics m
  | GoResult.returns (Except.error e) =>
    GoResult.returns (some (GoErr.wrap ("buildRequestUrl") e))
  | GoResult.returns (Except.ok _baseURL) =>
    match ex.doResult with
    | Except.error e => GoResult.returns (some (GoErr.transport e))
    | Except.ok status =>
      if status > 299 then
        GoResult.returns (some (GoErr.authBadStatus status ex.dump))
      else if ex.jarCookieNames.contains ("JSESSIONID".data) then
        GoResult.returns none
      else
        GoResult.returns (some GoErr.authNoSessionCookie)

/-- The V2 `NewFileSystem` (fs.go lines 212-253), reduced to its
error-relevant control flow: transport and client construction and
`cookiejar.New(nil)` (which never fails) always succeed; when
`EnableKnoxAuth` is set, `fs.auth()` runs synchronously and a failure
aborts construction with `fmt.Errorf("fs.Auth: %v", err)`; on success a
background refresh goroutine is started (outside this embedding) and the
FileSystem is returned. The result is `Except GoErr Unit`: `ok` stands
for the non-nil `*FileSystem` with nil error. -/
def NewFileSystem (parse : Str → Except String URL) (conf : Configuration)
    (osUser : Str) (ex : AuthExchange) : GoResult (Except GoErr Unit) :=
  if conf.EnableKnoxAuth then
    match auth parse conf osUser ex with
    | GoResult.panics m => GoResult.panics m
    | GoResult.returns (some e) =>
      GoResult.returns (Except.error (GoErr.wrap ("fs.Auth") e))
    | GoResult.returns none => GoResult.returns (Except.ok ())
  else GoResult.returns (Except.ok ())

/-- Drops one leading '/' from a path name, if present: the normal form
in which `buildRequestUrl` joins the remote path onto the base path. -/
def stripLeadingSlash (s : Str) : Str :=
  match s with
  | [] => []
  | c :: rest => if c = '/' then rest else c :: rest

/-- A stand-in `json.Unmarshal` whose parse always succeeds with the empty
envelope, for concrete evaluations. -/
def unmarshalTrivial : Bytes → Except String HdfsJsonData :=
  fun _ => Except.ok HdfsJsonData.empty

/-- A stand-in `json.Unmarshal` that always fails, as it does on the
truncated body the spec uses as an example. -/
def unmarshalFail : Bytes → Except String HdfsJsonData :=
  fun _ => Except.error ("unexpected end of JSON input")

/-- The remote exception of the spec's decoding example. -/
def remoteFNF : RemoteException :=
  { exception := "FileNotFoundException".data, message := "m".data, javaClassName := "c".data }

/-- A stand-in `json.Unmarshal` that parses the spec's RemoteException
example body. -/
def unmarshalRemote : Bytes → Except String HdfsJsonData :=
  fun _ => Except.ok { payload := [], remoteException := remoteFNF }

/-- Decoding yields a success payload or the zero value, never both: in
every branch of `makeHdfsData` the error is nil or the data is the zero
value. -/
theorem makeHdfsData_excl (unmarshal : Bytes → Except String HdfsJsonData)
    (data : Bytes) :
    (makeHdfsData unmarshal data).2 = none
      ∨ (makeHdfsData unmarshal data).1 = HdfsJsonData.empty := by
  unfold makeHdfsData
  split
  · left; rfl
  · split
    · right; rfl
    · split
      · right; rfl
      · left; rfl

/-- The decoder never produces the V1 dispatcher's bad-status error: its
errors are parse errors or remote exceptions. -/
theorem makeHdfsData_no_badStatus (unmarshal : Bytes → Except String HdfsJsonData)
    (data : Bytes) (c : Nat) (t : String) :
    (makeHdfsData unmarshal data).2 ≠ some (GoErr.badStatus c t) := by
  unfold makeHdfsData
  split
  · simp
  · split
    · simp
    · split
      · simp
      · simp

/-- Reading then decoding a response never produces the bad-status error
either: body-read failures and decode outcomes are the only sources. -/
theorem responseToHdfsData_no_badStatus (unmarshal : Bytes → Except String HdfsJsonData)
    (rsp : HttpResponse) (c : Nat) (t : String) :
    (responseToHdfsData unmarshal rsp).2 ≠ some (GoErr.badStatus c t) := by
  unfold responseToHdfsData
  split
  · simp
  · exact makeHdfsData_no_badStatus unmarshal _ c t

/-- C7: decode (`makeHdfsData`) applied to an empty or nil byte sequence
(a nil Go slice has length 0, so both take the `len(data) == 0` branch)
returns the empty success envelope `HdfsJsonData{}` and no error. -/
theorem makeHdfsData_empty_body (unmarshal : Bytes → Except String HdfsJsonData) :
    makeHdfsData unmarshal [] = (HdfsJsonData.empty, none) := rfl

/-- C8: decode (`makeHdfsData`) is a total function of the byte sequence
(the embedding has no panic outcome because the source performs no partial
operation), and on every non-empty byte sequence that the JSON parser
rejects it returns the zero-value payload with the parse failure as the
Decode error. -/
theorem makeHdfsData_invalid_json (unmarshal : Bytes → Except String HdfsJsonData)
    (data : Bytes) (e : String) (hne : data ≠ []) (hu : unmarshal data = Except.error e) :
    makeHdfsData unmarshal data = (HdfsJsonData.empty, some (GoErr.jsonDecode e)) := by
  have hlen : ¬ data.length = 0 := by simpa using hne
  simp only [makeHdfsData, if_neg hlen, hu]

/-- Witness for C8 at the spec's example: a truncated body the parser
rejects decodes to the zero value plus a Decode error. -/
theorem makeHdfsData_invalid_json_witness :
    makeHdfsData unmarshalFail [123] =
      (HdfsJsonData.empty, some (GoErr.jsonDecode ("unexpected end of JSON input"))) :=
  makeHdfsData_invalid_json unmarshalFail [123] ("unexpected end of JSON input")
    (by decide) rfl

/-- C6: when the parsed body's RemoteException has a non-empty exception
class, decode (`makeHdfsData`) returns that remote exception as the typed
error with the zero-value payload, never the parsed success payload; and
in general a decode outcome is a success (nil error) or the zero-value
payload, mutually exclusively. -/
theorem makeHdfsData_remote_exception (unmarshal : Bytes → Except String HdfsJsonData)
    (data : Bytes) (jd : HdfsJsonData) (hne : data ≠ [])
    (hu : unmarshal data = Except.ok jd) (hex : jd.remoteException.exception ≠ []) :
    makeHdfsData unmarshal data = (HdfsJsonData.empty, some (GoErr.remote jd.remoteException))
    ∧ ∀ u2 d2, (makeHdfsData u2 d2).2 = none ∨ (makeHdfsData u2 d2).1 = HdfsJsonData.empty := by
  constructor
  · have hlen : ¬ data.length = 0 := by simpa using hne
    simp only [makeHdfsData, if_neg hlen, hu, if_pos hex]
  · intro u2 d2
    exact makeHdfsData_excl u2 d2

/-- Witness for C6 at the spec's example body
`\x7b"RemoteException":\x7b"exception":"FileNotFoundException",...: the
decode yields the typed RemoteService error, not a success payload. -/
theorem makeHdfsData_remote_exception_witness :
    makeHdfsData unmarshalRemote [123] =
      (HdfsJsonData.empty, some (GoErr.remote remoteFNF)) :=
  (makeHdfsData_remote_exception unmarshalRemote [123]
    { payload := [], remoteException := remoteFNF } (by decide) rfl (by decide)).1

/-- Full case analysis of the V1 dispatcher: a non-nil error comes with
the zero-value payload, and a nil error means the response was a 200
whose body was fully read and decoded successfully. -/
theorem requestHdfsData_v1_spec (unmarshal : Bytes → Except String HdfsJsonData)
    (doResult : Except String HttpResponse) :
    ((requestHdfsData_v1 unmarshal doResult).2 ≠ none →
        (requestHdfsData_v1 unmarshal doResult).1 = HdfsJsonData.empty)
    ∧ ((requestHdfsData_v1 unmarshal doResult).2 = none →
        ∃ rsp body, doResult = Except.ok rsp ∧ rsp.statusCode = 200
          ∧ rsp.bodyRead = Except.ok body
          ∧ requestHdfsData_v1 unmarshal doResult = makeHdfsData unmarshal body) := by
  rcases doResult with e | rsp
  · exact ⟨fun _ => rfl, fun h => by simp [requestHdfsData_v1] at h⟩
  · by_cases hs : rsp.statusCode = 200
    · rcases hb : rsp.bodyRead with e | body
      · constructor
        · intro _
          simp [requestHdfsData_v1, hs, responseToHdfsData, hb]
        · intro h
          simp [requestHdfsData_v1, hs, responseToHdfsData, hb] at h
      · constructor
        · intro hne
          have hx := makeHdfsData_excl unmarshal body
          have hr : requestHdfsData_v1 unmarshal (Except.ok rsp)
              = makeHdfsData unmarshal body := by
            simp [requestHdfsData_v1, hs, responseToHdfsData, hb]
          rw [hr] at hne ⊢
          tauto
        · intro _
          refine ⟨rsp, body, rfl, hs, hb, ?_⟩
          simp [requestHdfsData_v1, hs, responseToHdfsData, hb]
    · constructor
      · intro _
        simp [requestHdfsData_v1, hs]
      · intro h
        simp [requestHdfsData_v1, hs] at h

/-- Full case analysis of the V2 dispatcher, as for V1 but with no status
condition. -/
theorem requestHdfsData_v2_spec (unmarshal : Bytes → Except String HdfsJsonData)
    (doResult : Except String HttpResponse) :
    ((requestHdfsData_v2 unmarshal doResult).2 ≠ none →
        (requestHdfsData_v2 unmarshal doResult).1 = HdfsJsonData.empty)
    ∧ ((requestHdfsData_v2 unmarshal doResult).2 = none →
        ∃ rsp body, doResult = Except.ok rsp ∧ rsp.bodyRead = Except.ok body
          ∧ requestHdfsData_v2 unmarshal doResult = makeHdfsData unmarshal body) := by
  rcases doResult with e | rsp
  · exact ⟨fun _ => rfl, fun h => by simp [requestHdfsData_v2] at h⟩
  · rcases hb : rsp.bodyRead with e | body
    · constructor
      · intro _
        simp [requestHdfsData_v2, responseToHdfsData, hb]
      · intro h
        simp [requestHdfsData_v2, responseToHdfsData, hb] at h
    · constructor
      · intro hne
        have hx := makeHdfsData_excl unmarshal body
        have hr : requestHdfsData_v2 unmarshal (Except.ok rsp)
            = makeHdfsData unmarshal body := by
          simp [requestHdfsData_v2, responseToHdfsData, hb]
        rw [hr] at hne ⊢
        tauto
      · intro _
        refine ⟨rsp, body, rfl, hb, ?_⟩
        simp [requestHdfsData_v2, responseToHdfsData, hb]

/-- C5: both dispatcher variants return either a decoded success payload
with a nil error (the body of a fully read response, decoded without
error), or the zero-value payload with a non-nil error; no failing step
ever yields a non-error result. -/
theorem requestHdfsData_error_contract (unmarshal : Bytes → Except String HdfsJsonData)
    (doResult : Except String HttpResponse) :
    (((requestHdfsData_v1 unmarshal doResult).2 ≠ none →
        (requestHdfsData_v1 unmarshal doResult).1 = HdfsJsonData.empty)
      ∧ ((requestHdfsData_v1 unmarshal doResult).2 = none →
        ∃ rsp body, doResult = Except.ok rsp ∧ rsp.statusCode = 200
          ∧ rsp.bodyRead = Except.ok body
          ∧ requestHdfsData_v1 unmarshal doResult = makeHdfsData unmarshal body))
    ∧ (((requestHdfsData_v2 unmarshal doResult).2 ≠ none →
        (requestHdfsData_v2 unmarshal doResult).1 = HdfsJsonData.empty)
      ∧ ((requestHdfsData_v2 unmarshal doResult).2 = none →
        ∃ rsp body, doResult = Except.ok rsp ∧ rsp.bodyRead = Except.ok body
          ∧ requestHdfsData_v2 unmarshal doResult = makeHdfsData unmarshal body)) :=
  ⟨requestHdfsData_v1_spec unmarshal doResult, requestHdfsData_v2_spec unmarshal doResult⟩

/-- The parse tail keeps the receiver state and effect trace it was
given: only the third (value/error) component depends on the parse. -/
theorem parseOutcome_effects (step : Configuration × List Effect)
    (r : Except String URL) : (parseOutcome step r).2.1 = step.2 := by
  cases r <;> rfl

/-- The parse tail fails exactly when `url.Parse` failed, and with that
error. -/
theorem parseOutcome_error (step : Configuration × List Effect)
    (r : Except String URL) (e : GoErr)
    (he : (parseOutcome step r).2.2 = Except.error e) :
    ∃ m, r = Except.error m ∧ e = GoErr.urlParse m := by
  cases r with
  | error m =>
    refine ⟨m, rfl, ?_⟩
    have : Except.error (GoErr.urlParse m) = Except.error e := he
    simpa using this.symm
  | ok u => simp [parseOutcome] at he

/-- The V1 base-URL derivation can fail, but only with the error
`url.Parse` produced: the configuration-error branch is unreachable
because its guard `&conf.Addr == nil` is always false. -/
theorem getNameNodeUrl_v1_error_from_parse (parse : Str → Except String URL)
    (conf : Configuration) (osUser : Str) (e : GoErr)
    (he : (GetNameNodeUrl_v1 parse conf osUser).2.2 = Except.error e) :
    ∃ m, e = GoErr.urlParse m := by
  unfold GetNameNodeUrl_v1 at he
  rw [if_neg (by simp [fieldAddrIsNil])] at he
  obtain ⟨m, _, hm⟩ := parseOutcome_error _ _ _ he
  exact ⟨m, hm⟩

/-- The V2 base-URL derivation can fail only with the `url.Parse` error,
as for V1. -/
theorem getNameNodeUrl_v2_error_from_parse (parse : Str → Except String URL)
    (conf : Configuration) (osUser : Str) (e : GoErr)
    (he : (GetNameNodeUrl_v2 parse conf osUser).2.2 = Except.error e) :
    ∃ m, e = GoErr.urlParse m := by
  unfold GetNameNodeUrl_v2 at he
  rw [if_neg (by simp [fieldAddrIsNil])] at he
  obtain ⟨m, _, hm⟩ := parseOutcome_error _ _ _ he
  exact ⟨m, hm⟩

/-- The V1 base-URL derivation performs no network call on any path,
parse failure included: its only effect is the optional operating-system
user lookup. -/
theorem getNameNodeUrl_v1_no_netCall (parse : Str → Except String URL)
    (conf : Configuration) (osUser : Str) :
    Effect.netCall ∉ (GetNameNodeUrl_v1 parse conf osUser).2.1 := by
  unfold GetNameNodeUrl_v1
  split
  · simp
  · rw [parseOutcome_effects]
    split <;> simp

/-- The V2 base-URL derivation performs no network call either. -/
theorem getNameNodeUrl_v2_no_netCall (parse : Str → Except String URL)
    (conf : Configuration) (osUser : Str) :
    Effect.netCall ∉ (GetNameNodeUrl_v2 parse conf osUser).2.1 := by
  unfold GetNameNodeUrl_v2
  split
  · simp
  · rw [parseOutcome_effects]
    split <;> simp

/-- The URL builder's effect trace is exactly the base-URL derivation's:
the builder itself adds no effect. -/
theorem buildRequestUrlWith_effects
    (g : Configuration → Str → Configuration × List Effect × Except GoErr URL)
    (conf : Configuration) (p : Option Path) (params : Option (List (Str × Str)))
    (osUser : Str) :
    (buildRequestUrlWith g conf p params osUser).1 = (g conf osUser).2.1 := by
  unfold buildRequestUrlWith
  rcases hg : g conf osUser with ⟨conf2, effs, r⟩
  rcases r with e | u
  · rfl
  · rcases p with _ | ⟨⟨name⟩⟩
    · rfl
    · rcases name with _ | ⟨c, rest⟩
      · rfl
      · rfl

/-- The URL builder can only panic through the unguarded `p.Name[0]`
index: with a nil path or a non-empty name, no panic occurs. -/
theorem buildRequestUrlWith_no_panic
    (g : Configuration → Str → Configuration × List Effect × Except GoErr URL)
    (conf : Configuration) (p : Option Path) (params : Option (List (Str × Str)))
    (osUser : Str) (hp : ∀ pa : Path, p = some pa → pa.Name ≠ []) (m : String) :
    (buildRequestUrlWith g conf p params osUser).2 ≠ GoResult.panics m := by
  unfold buildRequestUrlWith
  rcases hg : g conf osUser with ⟨conf2, effs, r⟩
  rcases r with e | u
  · simp
  · rcases p with _ | ⟨⟨name⟩⟩
    · simp
    · have hname : name ≠ [] := hp { Name := name } rfl
      rcases name with _ | ⟨c, rest⟩
      · exact absurd rfl hname
      · simp

/-- Whenever the base-URL derivation succeeds, a non-nil path with an
empty name drives the builder into the unguarded `p.Name[0]` index, a Go
runtime panic. -/
theorem buildRequestUrlWith_panics_on_empty
    (g : Configuration → Str → Configuration × List Effect × Except GoErr URL)
    (conf : Configuration) (params : Option (List (Str × Str))) (osUser : Str)
    (u0 : URL) (hg : (g conf osUser).2.2 = Except.ok u0) :
    (buildRequestUrlWith g conf (some { Name := [] }) params osUser).2
      = GoResult.panics ("runtime error: index out of range") := by
  unfold buildRequestUrlWith
  rcases hgc : g conf osUser with ⟨conf2, effs, r⟩
  rw [hgc] at hg
  simp only at hg
  subst hg
  rfl

/-- Merging query parameters leaves the URL's path untouched. -/
theorem attachParams_path (u : URL) (params : Option (List (Str × Str))) :
    (attachParams u params).path = u.path := by
  unfold attachParams
  rcases params with _ | ps
  · rfl
  · rfl

/-- Joining a non-empty remote path onto the base URL puts exactly one
'/' between the base path and the remote path (the remote path's own
leading '/', when present, is the separator). -/
theorem buildRequestUrlWith_single_slash
    (g : Configuration → Str → Configuration × List Effect × Except GoErr URL)
    (conf : Configuration) (params : Option (List (Str × Str))) (osUser : Str)
    (name : Str) (hname : name ≠ []) (u base : URL)
    (hbase : (g conf osUser).2.2 = Except.ok base)
    (hres : (buildRequestUrlWith g conf (some { Name := name }) params osUser).2
      = GoResult.returns (Except.ok u)) :
    u.path = base.path ++ '/' :: stripLeadingSlash name := by
  rcases name with _ | ⟨c, rest⟩
  · exact absurd rfl hname
  · unfold buildRequestUrlWith at hres
    rcases hgc : g conf osUser with ⟨conf2, effs, r⟩
    rw [hgc] at hbase hres
    simp only at hbase
    subst hbase
    by_cases hc : c = '/'
    · simp only [if_pos hc] at hres
      simp only [GoResult.returns.injEq, Except.ok.injEq] at hres
      subst hres
      rw [attachParams_path]
      subst hc
      simp [stripLeadingSlash]
    · simp only [if_neg hc] at hres
      simp only [GoResult.returns.injEq, Except.ok.injEq] at hres
      subst hres
      rw [attachParams_path]
      simp [stripLeadingSlash, hc]

/-- C2: `buildRequestUrl` (both variants) is pure towards its caller,
whatever `url.Parse` does: its effect trace holds no network call (at
most the operating-system user lookup the inner `GetNameNodeUrl` performs
on its value copy), and the Configuration value the caller passed - Go
passes `conf Configuration` by value - is unchanged after the call, User
field included. -/
theorem buildRequestUrl_pure (parse : Str → Except String URL)
    (conf : Configuration) (p : Option Path)
    (params : Option (List (Str × Str))) (osUser : Str) :
    (buildRequestUrlCall_v1 parse conf p params osUser).1 = conf
    ∧ Effect.netCall ∉ (buildRequestUrl_v1 parse conf p params osUser).1
    ∧ (buildRequestUrlCall_v2 parse conf p params osUser).1 = conf
    ∧ Effect.netCall ∉ (buildRequestUrl_v2 parse conf p params osUser).1 := by
  refine ⟨rfl, ?_, rfl, ?_⟩
  · unfold buildRequestUrl_v1
    rw [buildRequestUrlWith_effects]
    exact getNameNodeUrl_v1_no_netCall parse conf osUser
  · unfold buildRequestUrl_v2
    rw [buildRequestUrlWith_effects]
    exact getNameNodeUrl_v2_no_netCall parse conf osUser

/-- C9: for every configuration, every behavior of `url.Parse` and every
non-empty remote path name, both variants of `buildRequestUrl` put
exactly one separating '/' between the derived base URL's path and the
remote path, whether or not the name already starts with '/'. -/
theorem buildRequestUrl_single_slash (parse : Str → Except String URL)
    (conf : Configuration) (params : Option (List (Str × Str))) (osUser : Str)
    (name : Str) (hname : name ≠ []) :
    (∀ u base, (GetNameNodeUrl_v1 parse conf osUser).2.2 = Except.ok base →
      (buildRequestUrl_v1 parse conf (some { Name := name }) params osUser).2
        = GoResult.returns (Except.ok u) →
      u.path = base.path ++ '/' :: stripLeadingSlash name)
    ∧ (∀ u base, (GetNameNodeUrl_v2 parse conf osUser).2.2 = Except.ok base →
      (buildRequestUrl_v2 parse conf (some { Name := name }) params osUser).2
        = GoResult.returns (Except.ok u) →
      u.path = base.path ++ '/' :: stripLeadingSlash name) :=
  ⟨fun u base hb hr =>
      buildRequestUrlWith_single_slash (GetNameNodeUrl_v1 parse) conf params osUser name hname u base hb hr,
    fun u base hb hr =>
      buildRequestUrlWith_single_slash (GetNameNodeUrl_v2 parse) conf params osUser name hname u base hb hr⟩

/-- A stand-in for `url.Parse` that succeeds with the given URL, for
concrete inputs on which the real `url.Parse` succeeds. -/
def parseAs (u : URL) : Str → Except String URL :=
  fun _ => Except.ok u

/-- A stand-in for `url.Parse` that fails, as the real one does e.g. on a
non-numeric port in the address. -/
def parseFail : Str → Except String URL :=
  fun _ => Except.error ("parse: invalid port after host")

/-- A configuration for concrete evaluations: address and user set, HTTPS
and Knox auth off. -/
def conf0 : Configuration :=
  { Addr := "localhost:50070".data, BasePath := "/base".data, User := "hdfs".data,
    Password := [], UseHTTPS := false, EnableKnoxAuth := false }

/-- The base URL the real `url.Parse` yields on `conf0`'s built string
`http://localhost:50070/webhdfs/v1/base?user.name=hdfs`. -/
def base0 : URL :=
  { scheme := "http".data, host := "localhost:50070".data,
    path := "/webhdfs/v1/base".data, query := [("user.name".data, "hdfs".data)] }

/-- The URL built for `conf0` and remote path "x" with no parameters. -/
def built0 : URL :=
  { scheme := "http".data, host := "localhost:50070".data,
    path := "/webhdfs/v1/base/x".data, query := [("user.name".data, "hdfs".data)] }

/-- Witness for C9 at a concrete input: remote path "x" against `conf0`
lands at base path plus "/x". -/
theorem buildRequestUrl_single_slash_witness :
    built0.path = base0.path ++ '/' :: stripLeadingSlash ("x".data) :=
  (buildRequestUrl_single_slash (parseAs base0) conf0 none ("os".data) ("x".data)
      (by decide)).1
    built0 base0 (by decide) (by decide)

/-- C10: whenever the base-URL derivation succeeds, calling either
variant of `buildRequestUrl` with a non-nil path whose name is empty
reaches the unguarded `p.Name[0]` index and panics (when the derivation
fails, its error is returned before the index is reached); with a nil
path, or any path whose name has at least one character, no panic is
possible on any path of the code. -/
theorem buildRequestUrl_empty_name_panics (parse : Str → Except String URL)
    (conf : Configuration) (params : Option (List (Str × Str))) (osUser : Str) :
    (∀ u, (GetNameNodeUrl_v1 parse conf osUser).2.2 = Except.ok u →
      (buildRequestUrl_v1 parse conf (some { Name := [] }) params osUser).2
        = GoResult.panics ("runtime error: index out of range"))
    ∧ (∀ u, (GetNameNodeUrl_v2 parse conf osUser).2.2 = Except.ok u →
      (buildRequestUrl_v2 parse conf (some { Name := [] }) params osUser).2
        = GoResult.panics ("runtime error: index out of range"))
    ∧ (∀ (p : Option Path) (m : String), (∀ pa : Path, p = some pa → pa.Name ≠ []) →
        (buildRequestUrl_v1 parse conf p params osUser).2 ≠ GoResult.panics m)
    ∧ (∀ (p : Option Path) (m : String), (∀ pa : Path, p = some pa → pa.Name ≠ []) →
        (buildRequestUrl_v2 parse conf p params osUser).2 ≠ GoResult.panics m) :=
  ⟨fun u hu => buildRequestUrlWith_panics_on_empty (GetNameNodeUrl_v1 parse) conf params osUser u hu,
    fun u hu => buildRequestUrlWith_panics_on_empty (GetNameNodeUrl_v2 parse) conf params osUser u hu,
    fun p m hp => buildRequestUrlWith_no_panic (GetNameNodeUrl_v1 parse) conf p params osUser hp m,
    fun p m hp => buildRequestUrlWith_no_panic (GetNameNodeUrl_v2 parse) conf p params osUser hp m⟩

/-- Witness for C10 at a concrete input: with `conf0`'s base URL parsing
successfully, the empty-name call panics in both variants. -/
theorem buildRequestUrl_empty_name_panics_witness :
    (buildRequestUrl_v1 (parseAs base0) conf0 (some { Name := [] }) none ("os".data)).2
      = GoResult.panics ("runtime error: index out of range")
    ∧ (buildRequestUrl_v2 (parseAs base0) conf0 (some { Name := [] }) none ("os".data)).2
      = GoResult.panics ("runtime error: index out of range") :=
  ⟨(buildRequestUrl_empty_name_panics (parseAs base0) conf0 none ("os".data)).1
      base0 (by decide),
    (buildRequestUrl_empty_name_panics (parseAs base0) conf0 none ("os".data)).2.1
      base0 (by decide)⟩

/-- A configuration whose namenode address field is unset (the Go zero
value, the empty string); the user field is set so no defaulting occurs. -/
def confNoAddr : Configuration :=
  { Addr := [], BasePath := [], User := "u".data, Password := [],
    UseHTTPS := false, EnableKnoxAuth := false }

/-- The URL the real `url.Parse` yields on the string the code builds for
`confNoAddr`, `http:///webhdfs/v1?user.name=u` (an empty host parses
successfully). -/
def urlNoAddr : URL :=
  { scheme := "http".data, host := [], path := WebHdfsVer,
    query := [("user.name".data, "u".data)] }

/-- C1 (the code bug): `&conf.Addr == nil` is never true in Go, so the
"Configuration namenode address not set." branch is unreachable: for
every configuration, every `url.Parse` behavior and every user, neither
variant can return the configuration error - the only possible error is
the one `url.Parse` produced - and with the address unset (and `url.Parse`
succeeding, as the real one does on `http:///webhdfs/v1?user.name=u`),
both variants return the parsed URL with an empty host and a nil error
instead of the configuration error. -/
theorem getNameNodeUrl_addr_unset_succeeds :
    (∀ (parse : Str → Except String URL) (conf : Configuration) (osUser : Str) (e : GoErr),
      ((GetNameNodeUrl_v1 parse conf osUser).2.2 = Except.error e
          ∨ (GetNameNodeUrl_v2 parse conf osUser).2.2 = Except.error e) →
        ∃ m, e = GoErr.urlParse m)
    ∧ (GetNameNodeUrl_v1 (parseAs urlNoAddr) confNoAddr ("os".data)).2.2
        = Except.ok urlNoAddr
    ∧ (GetNameNodeUrl_v2 (parseAs urlNoAddr) confNoAddr ("os".data)).2.2
        = Except.ok urlNoAddr := by
  refine ⟨?_, by decide, by decide⟩
  intro parse conf osUser e he
  rcases he with he | he
  · exact getNameNodeUrl_v1_error_from_parse parse conf osUser e he
  · exact getNameNodeUrl_v2_error_from_parse parse conf osUser e he

/-- A response whose status lies inside the 2xx range without being 200. -/
def rsp204 : HttpResponse :=
  { statusCode := 204, status := "204 No Content", bodyRead := Except.ok [] }

/-- C3 counterexample: status 204 is inside the 2xx range, yet the
status-checking dispatcher fails with the Protocol (bad status) error -
the code compares the status against 200 exactly, not against the 2xx
range. -/
theorem requestHdfsData_v1_2xx_protocol_error :
    200 ≤ rsp204.statusCode ∧ rsp204.statusCode ≤ 299
    ∧ requestHdfsData_v1 unmarshalTrivial (Except.ok rsp204)
      = (HdfsJsonData.empty, some (GoErr.badStatus 204 ("204 No Content"))) :=
  ⟨by decide, by decide, rfl⟩

/-- C3 (amended): in the status-checking variant, every response status
other than 200 fails with the Protocol error carrying the status code and
status text, and a 200 response never yields that error; statuses inside
2xx other than 200 therefore fail as well. -/
theorem requestHdfsData_v1_status_check (unmarshal : Bytes → Except String HdfsJsonData)
    (rsp : HttpResponse) :
    (rsp.statusCode ≠ 200 →
      requestHdfsData_v1 unmarshal (Except.ok rsp)
        = (HdfsJsonData.empty, some (GoErr.badStatus rsp.statusCode rsp.status)))
    ∧ (rsp.statusCode = 200 →
      ∀ c t, (requestHdfsData_v1 unmarshal (Except.ok rsp)).2 ≠ some (GoErr.badStatus c t)) := by
  constructor
  · intro hs
    simp [requestHdfsData_v1, hs]
  · intro hs c t
    have hr : requestHdfsData_v1 unmarshal (Except.ok rsp) = responseToHdfsData unmarshal rsp := by
      simp [requestHdfsData_v1, hs]
    rw [hr]
    exact responseToHdfsData_no_badStatus unmarshal rsp c t

/-- When the base-URL derivation fails, the builder returns that error
before touching the path or the parameters. -/
theorem buildRequestUrlWith_error
    (g : Configuration → Str → Configuration × List Effect × Except GoErr URL)
    (conf : Configuration) (p : Option Path) (params : Option (List (Str × Str)))
    (osUser : Str) (e : GoErr) (hg : (g conf osUser).2.2 = Except.error e) :
    (buildRequestUrlWith g conf p params osUser).2
      = GoResult.returns (Except.error e) := by
  unfold buildRequestUrlWith
  rcases hgc : g conf osUser with ⟨c2, effs, r⟩
  rw [hgc] at hg
  simp only at hg
  subst hg
  rfl

/-- Whenever the V2 base-URL derivation succeeds, the `auth` handshake's
request URL builds successfully: the path "/" is non-empty. -/
theorem buildRequestUrl_v2_auth_ok (parse : Str → Except String URL)
    (conf : Configuration) (osUser : Str) (base : URL)
    (hbase : (GetNameNodeUrl_v2 parse conf osUser).2.2 = Except.ok base) :
    ∃ u, (buildRequestUrl_v2 parse conf (some { Name := "/".data })
        (some [("op".data, OP_LISTSTATUS)]) osUser).2
      = GoResult.returns (Except.ok u) := by
  unfold buildRequestUrl_v2 buildRequestUrlWith
  rcases hg : GetNameNodeUrl_v2 parse conf osUser with ⟨c2, effs, r⟩
  rw [hg] at hbase
  simp only at hbase
  subst hbase
  exact ⟨_, rfl⟩

/-- C4: with Knox auth enabled, Session construction (`NewFileSystem`)
fails by propagating the handshake error whenever `auth` fails; whenever
the base URL derives successfully, the handshake fails both on a status
above 299 (the code's non-success test) and on a success-range (2xx)
status whose exchange left no JSESSIONID cookie in the jar for the base
URL; and when the base URL itself fails to derive (a `url.Parse`
failure), the handshake fails with that error wrapped, before any
status or cookie check. -/
theorem newFileSystem_auth_failure (parse : Str → Except String URL)
    (conf : Configuration) (osUser : Str) (ex : AuthExchange)
    (hknox : conf.EnableKnoxAuth = true) :
    (∀ e, auth parse conf osUser ex = GoResult.returns (some e) →
      NewFileSystem parse conf osUser ex
        = GoResult.returns (Except.error (GoErr.wrap ("fs.Auth") e)))
    ∧ (∀ base status, (GetNameNodeUrl_v2 parse conf osUser).2.2 = Except.ok base →
      ex.doResult = Except.ok status → 300 ≤ status →
      auth parse conf osUser ex = GoResult.returns (some (GoErr.authBadStatus status ex.dump)))
    ∧ (∀ base status, (GetNameNodeUrl_v2 parse conf osUser).2.2 = Except.ok base →
      ex.doResult = Except.ok status → 200 ≤ status → status ≤ 299 →
      ex.jarCookieNames.contains ("JSESSIONID".data) = false →
      auth parse conf osUser ex = GoResult.returns (some GoErr.authNoSessionCookie))
    ∧ (∀ e, (GetNameNodeUrl_v2 parse conf osUser).2.2 = Except.error e →
      auth parse conf osUser ex
        = GoResult.returns (some (GoErr.wrap ("buildRequestUrl") e))) := by
  refine ⟨?_, ?_, ?_, ?_⟩
  · intro e he
    simp [NewFileSystem, hknox, he]
  · intro base status hbase hdo hge
    obtain ⟨u, hu⟩ := buildRequestUrl_v2_auth_ok parse conf osUser base hbase
    unfold auth
    rw [hu, hdo]
    have hgt : status > 299 := hge
    simp [hgt]
  · intro base status hbase hdo h200 h299 hcookie
    obtain ⟨u, hu⟩ := buildRequestUrl_v2_auth_ok parse conf osUser base hbase
    unfold auth
    rw [hu, hdo]
    have hgt : ¬ status > 299 := by omega
    simp [hgt]
    simpa using hcookie
  · intro e he
    have hb := buildRequestUrlWith_error (GetNameNodeUrl_v2 parse) conf
      (some { Name := "/".data }) (some [("op".data, OP_LISTSTATUS)]) osUser e he
    unfold auth buildRequestUrl_v2
    rw [hb]

/-- A configuration with Knox auth enabled, for concrete evaluations. -/
def confKnox : Configuration :=
  { Addr := "knox:8443".data, BasePath := [], User := "u".data,
    Password := "p".data, UseHTTPS := false, EnableKnoxAuth := true }

/-- The base URL the real `url.Parse` yields on `confKnox`'s built string
`http://knox:8443/webhdfs/v1?user.name=u`. -/
def baseKnox : URL :=
  { scheme := "http".data, host := "knox:8443".data, path := WebHdfsVer,
    query := [("user.name".data, "u".data)] }

/-- An exchange that ends with HTTP 200 but leaves no cookie in the jar. -/
def exNoCookie : AuthExchange :=
  { doResult := Except.ok 200, dump := "", jarCookieNames := [] }

/-- Witness for C4 at a concrete input: with the base URL parsing
successfully, HTTP 200 with an empty cookie jar makes the handshake fail
and construction propagate the failure. -/
theorem newFileSystem_auth_failure_witness :
    NewFileSystem (parseAs baseKnox) confKnox ("os".data) exNoCookie
      = GoResult.returns (Except.error (GoErr.wrap ("fs.Auth") GoErr.authNoSessionCookie)) :=
  (newFileSystem_auth_failure (parseAs baseKnox) confKnox ("os".data) exNoCookie rfl).1
    GoErr.authNoSessionCookie
    ((newFileSystem_auth_failure (parseAs baseKnox) confKnox ("os".data) exNoCookie rfl).2.2.1
      baseKnox 200 (by decide) rfl (by decide) (by decide) rfl)

end gowfs
